import Mathlib

/-!
Verification of the VibeJudge content-analysis pipeline
(src/models/analyzer.py and src/database/db_manager.py).

The text of the transcript is embedded as a Lean `String` and processed
through its underlying `List Char`.  Machine floats of the source are
embedded as `ℚ`; a Python function that can raise and is caught by a
surrounding try/except returning the empty dict is embedded as an
`Option`-returning function where `none` stands for the empty-dict return.
Python `round(x, d)` is embedded as rounding `x * 10^d` to the nearest
integer (ties differ between the banker rounding of Python and the
half-up rounding of `round`; no statement below depends on tie behaviour).
-/

/-- Lowercasing of the text, embedding the Python `str.lower()` call
(identical on the ASCII alphabet, which is all the lexicon uses). -/
def pyLower (cs : List Char) : List Char := cs.map Char.toLower

/-- Does `hay` start with `pat`? (character-by-character comparison). -/
def listStartsWith : List Char → List Char → Bool
  | _, [] => true
  | [], _ :: _ => false
  | c :: cs, p :: ps => c == p && listStartsWith cs ps

/-- Worker for `countOccs`: structural scan over the haystack.  After a
match the next `pat.length - 1` characters are skipped, giving the
non-overlapping, left-to-right semantics of the Python `str.count`. -/
def countOccsGo : List Char → List Char → Nat → Nat
  | [], _, _ => 0
  | _ :: cs, pat, skip + 1 => countOccsGo cs pat skip
  | c :: cs, pat, 0 =>
    if listStartsWith (c :: cs) pat then countOccsGo cs pat (pat.length - 1) + 1
    else countOccsGo cs pat 0

/-- Embedding of the Python `hay.count(pat)`: number of non-overlapping
occurrences of `pat` in `hay`, scanning left to right. -/
def countOccs (hay pat : List Char) : Nat :=
  match pat with
  | [] => hay.length + 1
  | _ :: _ => countOccsGo hay pat 0

/-- Embedding of `text.lower().count(phrase)` from `analyze_bias`
(src/models/analyzer.py line 90). -/
def phraseCount (text phrase : String) : Nat :=
  countOccs (pyLower text.data) phrase.data

/-- The bias lexicon of `ContentAnalyzer.__init__`
(src/models/analyzer.py lines 33-38), in source order. -/
def biasLexicon : List (String × List String) :=
  [("political_left", ["radical left", "socialist agenda", "woke mob", "comrade"]),
   ("political_right", ["radical right", "fascist", "bootlicker", "maga"]),
   ("absolutist", ["always", "never", "everyone", "nobody", "undeniably"]),
   ("aggressive", ["stupid", "idiot", "shut up", "disgusting", "traitor"])]

/-- All (category, phrase) pairs of the lexicon, in iteration order. -/
def lexiconPairs : List (String × String) :=
  biasLexicon.flatMap (fun cp => cp.2.map (fun p => (cp.1, p)))

/-- A bias flag as built by `analyze_bias`: the dict literal of
src/models/analyzer.py lines 93-97 has exactly the keys `phrase`,
`category` and `count`; the remaining keys read back by the database
layer are absent, embedded here as `Option` fields defaulting to
`none`. -/
structure BiasFlag where
  phrase : String
  category : String
  count : Nat
  severity : Option String := none
  sentence : Option String := none
  context : Option String := none
  timestamp : Option String := none
  timestamp_seconds : Option ℚ := none
deriving DecidableEq, Repr

/-- The flag dict as the analyzer builds it (three keys only). -/
def mkFlag (phrase category : String) (count : Nat) : BiasFlag :=
  { phrase := phrase, category := category, count := count }

/-- Result dict of `analyze_bias` (src/models/analyzer.py lines 107-112). -/
structure BiasResult where
  score : Nat
  level : String
  flags_count : Nat
  flags : List BiasFlag
deriving DecidableEq, Repr

/-- One step of the scan loop body (src/models/analyzer.py lines 90-97). -/
def biasStep (text : String) (acc : Nat × List BiasFlag)
    (category phrase : String) : Nat × List BiasFlag :=
  let count := phraseCount text phrase
  if count > 0 then (acc.1 + count * 10, acc.2 ++ [mkFlag phrase category count])
  else acc

/-- The nested for-loops of `analyze_bias` accumulating `score` and
`flags` (src/models/analyzer.py lines 85-97). -/
def biasScan (text : String) : Nat × List BiasFlag :=
  biasLexicon.foldl
    (fun acc cp => cp.2.foldl (fun a2 p => biasStep text a2 cp.1 p) acc)
    (0, [])

/-- Embedding of `ContentAnalyzer.analyze_bias`
(src/models/analyzer.py lines 80-112).  The source also runs the spacy
pipeline on the lowered text (line 84) but never uses the parse; it is
omitted here. -/
def analyze_bias (text : String) : BiasResult :=
  let scan := biasScan text
  let final_score := min scan.1 100
  let level :=
    if final_score < 20 then "Low"
    else if final_score < 50 then "Moderate"
    else "High"
  { score := final_score, level := level,
    flags_count := scan.2.length, flags := scan.2 }

/-- The flag that a single (category, phrase) pair contributes, if any. -/
def phraseFlag (text : String) (cp : String × String) : Option BiasFlag :=
  let n := phraseCount text cp.2
  if n > 0 then some (mkFlag cp.2 cp.1 n) else none

/-- Closed form of the flag list: one flag per lexicon pair whose phrase
occurs in the text. -/
def flagsOfText (text : String) : List BiasFlag :=
  lexiconPairs.filterMap (phraseFlag text)

/-- Total number of phrase occurrences over the whole lexicon. -/
def totalCount (text : String) : Nat :=
  (lexiconPairs.map (fun cp => phraseCount text cp.2)).sum

/-! ### Closed form of the bias scan -/

lemma foldl_biasStep (text : String) (l : List (String × String))
    (s : Nat) (fs : List BiasFlag) :
    l.foldl (fun a cp => biasStep text a cp.1 cp.2) (s, fs)
      = (s + 10 * (l.map (fun cp => phraseCount text cp.2)).sum,
         fs ++ l.filterMap (phraseFlag text)) := by
  induction l generalizing s fs with
  | nil => simp
  | cons hd tl ih =>
    simp only [List.foldl_cons, List.map_cons, List.sum_cons, List.filterMap_cons]
    by_cases h : phraseCount text hd.2 > 0
    · have hstep : biasStep text (s, fs) hd.1 hd.2
          = (s + phraseCount text hd.2 * 10,
             fs ++ [mkFlag hd.2 hd.1 (phraseCount text hd.2)]) := by
        simp [biasStep, h]
      have hflag : phraseFlag text hd
          = some (mkFlag hd.2 hd.1 (phraseCount text hd.2)) := by
        simp [phraseFlag, h]
      rw [hstep, ih, hflag]
      simp only [Prod.mk.injEq]
      exact ⟨by omega, by simp⟩
    · have h0 : phraseCount text hd.2 = 0 := by omega
      have hstep : biasStep text (s, fs) hd.1 hd.2 = (s, fs) := by
        simp [biasStep, h0]
      have hflag : phraseFlag text hd = none := by
        simp [phraseFlag, h0]
      rw [hstep, ih, hflag, h0]
      simp

lemma nested_eq_pairs (text : String) (L : List (String × List String))
    (acc : Nat × List BiasFlag) :
    L.foldl (fun a cp => cp.2.foldl (fun a2 p => biasStep text a2 cp.1 p) a) acc
      = (L.flatMap (fun cp => cp.2.map (fun p => (cp.1, p)))).foldl
          (fun a cp => biasStep text a cp.1 cp.2) acc := by
  induction L generalizing acc with
  | nil => rfl
  | cons hd tl ih =>
    simp only [List.foldl_cons, List.flatMap_cons, List.foldl_append, List.foldl_map]
    exact ih _

lemma biasScan_closed (text : String) :
    biasScan text = (10 * totalCount text, flagsOfText text) := by
  unfold biasScan
  rw [nested_eq_pairs, ← lexiconPairs, foldl_biasStep]
  simp [totalCount, flagsOfText]

lemma analyze_bias_closed (text : String) :
    analyze_bias text =
      { score := min (10 * totalCount text) 100,
        level :=
          if min (10 * totalCount text) 100 < 20 then "Low"
          else if min (10 * totalCount text) 100 < 50 then "Moderate"
          else "High",
        flags_count := (flagsOfText text).length,
        flags := flagsOfText text } := by
  unfold analyze_bias
  rw [biasScan_closed]

/-- Helper: the raw (uncapped) accumulated score of the scan equals 10
per occurrence over the whole lexicon. -/
lemma biasScan_fst (text : String) : (biasScan text).1 = 10 * totalCount text := by
  rw [biasScan_closed]

/-- Helper: every flag in the closed-form flag list records a positive
occurrence count and `none` for every key absent from the source dict. -/
lemma flagsOfText_mem (text : String) (f : BiasFlag) (hf : f ∈ flagsOfText text) :
    1 ≤ f.count ∧ f.severity = none ∧ f.sentence = none ∧ f.context = none
      ∧ f.timestamp = none ∧ f.timestamp_seconds = none := by
  unfold flagsOfText at hf
  rcases List.mem_filterMap.mp hf with ⟨cp, _, hcp⟩
  unfold phraseFlag at hcp
  by_cases h : phraseCount text cp.2 > 0
  · simp only [h, if_pos] at hcp
    obtain rfl := Option.some.inj hcp
    exact ⟨h, rfl, rfl, rfl, rfl, rfl⟩
  · simp [h] at hcp

/-- Claim C1: for every input text the bias scan counts case-insensitive
substring occurrences of each lexicon phrase (substring matching, no
word-boundary tokenization), adds 10 points per occurrence to the
running score, and emits exactly one flag per (category, phrase) pair
with positive count, carrying the phrase, the category and that count;
in particular a text containing "maga" three times yields one flag with
count 3 contributing 30 to the score. -/
theorem C1_lexicon_scan_counts_and_flags (text : String) :
    (analyze_bias text).flags = lexiconPairs.filterMap (phraseFlag text)
    ∧ (biasScan text).1
        = 10 * (lexiconPairs.map (fun cp => phraseCount text cp.2)).sum
    ∧ analyze_bias "maga maga maga" =
        { score := 30, level := "Moderate", flags_count := 1,
          flags := [mkFlag "maga" "political_right" 3] } := by
  refine ⟨?_, biasScan_fst text, by decide⟩
  rw [analyze_bias_closed]
  rfl

/-- Claim C2: for every input text, `analyze_bias` returns
`score = min(raw_total, 100)` and a level that is a pure threshold
function of the score with inclusive lower bounds (`score < 20` Low,
`20 ≤ score < 50` Moderate, `score ≥ 50` High); the scenario text
containing "radical left" once and "socialist agenda" once and no other
lexicon phrase scores exactly 20 with level Moderate and two flags, and
a text scoring exactly 50 has level High. -/
theorem C2_score_cap_and_level_thresholds (text : String) :
    (analyze_bias text).score = min (10 * totalCount text) 100
    ∧ (analyze_bias text).level =
        (if (analyze_bias text).score < 20 then "Low"
         else if (analyze_bias text).score < 50 then "Moderate"
         else "High")
    ∧ analyze_bias "radical left socialist agenda" =
        { score := 20, level := "Moderate", flags_count := 2,
          flags := [mkFlag "radical left" "political_left" 1,
                    mkFlag "socialist agenda" "political_left" 1] }
    ∧ (analyze_bias "maga maga maga maga maga").score = 50
    ∧ (analyze_bias "maga maga maga maga maga").level = "High" := by
  refine ⟨?_, ?_, by decide, by decide, by decide⟩
  · rw [analyze_bias_closed]
  · rw [analyze_bias_closed]

/-- The capped score as a function of the per-phrase occurrence-count
vector: 10 points per occurrence, capped at 100. -/
def biasScoreOfCounts (counts : List Nat) : Nat := min (10 * counts.sum) 100

/-- Claim C6: the bias score is monotonic non-decreasing in the
occurrence counts of the lexicon phrases (pointwise larger count vectors
never decrease the score; in particular increasing one phrase count with
the others fixed), the score of `analyze_bias` is exactly this function
of the per-phrase occurrence counts of the text, and it never exceeds
100. -/
theorem C6_score_monotone_and_capped (text : String) (c c2 : List Nat)
    (h : List.Forall₂ (fun a b => a ≤ b) c c2) :
    biasScoreOfCounts c ≤ biasScoreOfCounts c2
    ∧ (analyze_bias text).score
        = biasScoreOfCounts (lexiconPairs.map (fun cp => phraseCount text cp.2))
    ∧ (analyze_bias text).score ≤ 100 := by
  refine ⟨?_, ?_, ?_⟩
  · have hsum : c.sum ≤ c2.sum := by
      induction h with
      | nil => simp
      | cons hab htl ih => simpa using Nat.add_le_add hab ih
    exact min_le_min (Nat.mul_le_mul_left 10 hsum) (le_refl 100)
  · rw [analyze_bias_closed]
    rfl
  · rw [analyze_bias_closed]
    exact Nat.min_le_right _ _

/-- Witness for C6 at concrete inputs. -/
theorem C6_witness :
    biasScoreOfCounts [1, 2] ≤ biasScoreOfCounts [3, 4]
    ∧ (analyze_bias "maga").score
        = biasScoreOfCounts (lexiconPairs.map (fun cp => phraseCount "maga" cp.2))
    ∧ (analyze_bias "maga").score ≤ 100 :=
  C6_score_monotone_and_capped "maga" [1, 2] [3, 4] (by simp)

/-- Claim C9: on any text in which no lexicon phrase occurs,
`analyze_bias` returns no flags, score 0 and level Low (and, being a
total function of the text, it has no failure path). -/
theorem C9_no_match_clean_result (text : String)
    (h : ∀ cp ∈ lexiconPairs, phraseCount text cp.2 = 0) :
    analyze_bias text = { score := 0, level := "Low", flags_count := 0, flags := [] } := by
  rw [analyze_bias_closed]
  have htot : totalCount text = 0 := by
    unfold totalCount
    rw [List.sum_eq_zero]
    intro x hx
    rcases List.mem_map.mp hx with ⟨cp, hcp, rfl⟩
    exact h cp hcp
  have hfl : flagsOfText text = [] := by
    unfold flagsOfText
    rw [List.filterMap_eq_nil_iff]
    intro cp hcp
    simp [phraseFlag, h cp hcp]
  rw [htot, hfl]
  rfl

/-- Witness for C9 at a concrete lexicon-free text. -/
theorem C9_witness :
    analyze_bias "hello world" =
      { score := 0, level := "Low", flags_count := 0, flags := [] } :=
  C9_no_match_clean_result "hello world" (by decide)

/-- Claim C10: for every input text the result of `analyze_bias`
satisfies `flags_count = length flags`, and every emitted flag has
occurrence count at least 1. -/
theorem C10_flags_count_invariant (text : String) :
    (analyze_bias text).flags_count = (analyze_bias text).flags.length
    ∧ (analyze_bias text).flags.all (fun f => decide (1 ≤ f.count)) = true := by
  rw [analyze_bias_closed]
  refine ⟨rfl, ?_⟩
  rw [List.all_eq_true]
  intro f hf
  simpa using (flagsOfText_mem text f hf).1

/-! ### Tone analysis -/

/-- Result dict of `analyze_tone` (src/models/analyzer.py lines 122-127):
the function is a placeholder returning a constant dict; there is no
`confidence` key. -/
structure ToneResult where
  dominant_tone : String
  calm_pct : ℚ
  excited_pct : ℚ
  aggressive_pct : ℚ
deriving DecidableEq, Repr

/-- Embedding of `ContentAnalyzer.analyze_tone`
(src/models/analyzer.py lines 114-127): it ignores the text and returns
the constant placeholder dict. -/
def analyze_tone (_text : String) : ToneResult :=
  { dominant_tone := "Neutral", calm_pct := 50, excited_pct := 10,
    aggressive_pct := 0 }

/-- Counterexample to claim C4: on the empty text the dominant tone is
the constant "Neutral", not the declared default "calm", and the result
dict has no confidence key at all. -/
theorem C4_counterexample :
    (analyze_tone "").dominant_tone = "Neutral"
    ∧ (analyze_tone "").dominant_tone ≠ "calm" := by
  exact ⟨rfl, by decide⟩

/-- Claim C4 (amended): for every input text, including the empty text,
`analyze_tone` returns the constant placeholder result with
`dominant_tone = "Neutral"`, `calm_pct = 50.0`, `excited_pct = 10.0` and
`aggressive_pct = 0.0`; the `dominant_tone` field is always present, but
there is no `confidence` field. -/
theorem C4_tone_constant_result (text : String) :
    analyze_tone text =
      { dominant_tone := "Neutral", calm_pct := 50, excited_pct := 10,
        aggressive_pct := 0 } := rfl

/-! ### Database row built from a flag -/

/-- The row tuple built by `DatabaseManager.insert_bias_flags`
(src/database/db_manager.py lines 241-257) for one flag, excluding the
`analysis_id` column.  Each `flag.get(key, default)` on a key absent
from the analyzer dict is embedded as `Option.getD`. -/
structure BiasFlagRow where
  phrase : String
  category : String
  severity : String
  sentence : String
  context : String
  timestamp : String
  timestamp_seconds : ℚ
deriving DecidableEq, Repr

/-- Embedding of the per-flag value tuple of `insert_bias_flags`
(src/database/db_manager.py lines 248-257).  `phrase`, `category` and
`count` are always present on analyzer flags, so their `get` never falls
back; the other keys use the documented defaults. -/
def insert_bias_flags_row (f : BiasFlag) : BiasFlagRow :=
  { phrase := f.phrase,
    category := f.category,
    severity := f.severity.getD "medium",
    sentence := f.sentence.getD "",
    context := f.context.getD "",
    timestamp := f.timestamp.getD "00:00",
    timestamp_seconds := f.timestamp_seconds.getD 0 }

/-- Counterexample to claim C5: the flag emitted by `analyze_bias` for
the text "maga" carries only phrase, category and count; it has no
severity, sentence, context, timestamp or timestamp_seconds. -/
theorem C5_counterexample :
    (analyze_bias "maga").flags = [mkFlag "maga" "political_right" 1]
    ∧ (mkFlag "maga" "political_right" 1).severity = none
    ∧ (mkFlag "maga" "political_right" 1).sentence = none
    ∧ (mkFlag "maga" "political_right" 1).context = none
    ∧ (mkFlag "maga" "political_right" 1).timestamp = none
    ∧ (mkFlag "maga" "political_right" 1).timestamp_seconds = none := by
  decide

/-- Claim C5 (amended): every flag emitted by `analyze_bias` carries
only phrase, category and count — severity, sentence, context,
timestamp and timestamp_seconds are absent — and the persistence layer
`insert_bias_flags` fills the missing columns with the defaults
severity "medium", sentence "", context "", timestamp "00:00" and
timestamp_seconds 0.0. -/
theorem C5_flags_minimal_and_db_defaults (text : String) (f : BiasFlag)
    (hf : f ∈ (analyze_bias text).flags) :
    f.severity = none ∧ f.sentence = none ∧ f.context = none
    ∧ f.timestamp = none ∧ f.timestamp_seconds = none
    ∧ insert_bias_flags_row f =
        { phrase := f.phrase, category := f.category, severity := "medium",
          sentence := "", context := "", timestamp := "00:00",
          timestamp_seconds := 0 } := by
  have hmem : f ∈ flagsOfText text := by
    have := analyze_bias_closed text
    rw [this] at hf
    exact hf
  obtain ⟨-, h1, h2, h3, h4, h5⟩ := flagsOfText_mem text f hmem
  refine ⟨h1, h2, h3, h4, h5, ?_⟩
  unfold insert_bias_flags_row
  rw [h1, h2, h3, h4, h5]
  rfl

/-- Witness for C5 at the concrete text "maga". -/
theorem C5_witness :
    (mkFlag "maga" "political_right" 1).severity = none
    ∧ (mkFlag "maga" "political_right" 1).sentence = none
    ∧ (mkFlag "maga" "political_right" 1).context = none
    ∧ (mkFlag "maga" "political_right" 1).timestamp = none
    ∧ (mkFlag "maga" "political_right" 1).timestamp_seconds = none
    ∧ insert_bias_flags_row (mkFlag "maga" "political_right" 1) =
        { phrase := (mkFlag "maga" "political_right" 1).phrase,
          category := (mkFlag "maga" "political_right" 1).category,
          severity := "medium", sentence := "", context := "",
          timestamp := "00:00", timestamp_seconds := 0 } :=
  C5_flags_minimal_and_db_defaults "maga" (mkFlag "maga" "political_right" 1)
    (by decide)

/-! ### Sentiment analysis

The sentence segmenter (spacy) and the RoBERTa classifier are external
collaborators; the embedding takes the segmented sentence list and the
classifier as parameters.  The classifier returns the softmax triple
(negative, neutral, positive) of src/models/analyzer.py line 63 as `ℚ`,
or `none` when the model invocation raises.  The whole body of
`analyze_sentiment` runs inside one try/except that returns the empty
dict on any exception; `none` in the return type stands for the empty
dict. -/

/-- One per-sentence classifier output in the label order of the source
(`labels = [negative, neutral, positive]`, src/models/analyzer.py
line 28). -/
structure Score3 where
  neg : ℚ
  neu : ℚ
  pos : ℚ
deriving DecidableEq, Repr

/-- Result dict of `analyze_sentiment` (src/models/analyzer.py
lines 69-74). -/
structure SentimentResult where
  negative_pct : ℚ
  neutral_pct : ℚ
  positive_pct : ℚ
  overall_score : ℚ
deriving DecidableEq, Repr

/-- Embedding of the Python `round(x, d)`: rounding to `d` decimal
places (ties rounded half-up rather than half-even; no statement below
depends on tie behaviour). -/
def roundTo (d : Nat) (x : ℚ) : ℚ := (round (x * 10 ^ d) : ℤ) / 10 ^ d

/-- The classification loop of src/models/analyzer.py lines 60-64: each
sentence is classified in turn and an exception anywhere aborts the
whole loop (propagating to the except branch), embedded as `none`. -/
def collectScores (cl : String → Option Score3) : List String → Option (List Score3)
  | [] => some []
  | s :: rest =>
    match cl s with
    | none => none
    | some t => (collectScores cl rest).map (fun l => t :: l)

/-- The zero aggregate returned for an empty sentence list
(src/models/analyzer.py line 55). -/
def zeroSentiment : SentimentResult :=
  { positive_pct := 0, neutral_pct := 0, negative_pct := 0, overall_score := 0 }

/-- Averaging and rounding of the collected scores
(src/models/analyzer.py lines 67-74): componentwise arithmetic mean of
the per-sentence triples, percentages rounded to one decimal, overall
score `pos - neg` rounded to two decimals. -/
def aggregateScores (scores : List Score3) : SentimentResult :=
  let k : ℚ := scores.length
  let avgNeg := (scores.map Score3.neg).sum / k
  let avgNeu := (scores.map Score3.neu).sum / k
  let avgPos := (scores.map Score3.pos).sum / k
  { negative_pct := roundTo 1 (avgNeg * 100),
    neutral_pct := roundTo 1 (avgNeu * 100),
    positive_pct := roundTo 1 (avgPos * 100),
    overall_score := roundTo 2 (avgPos - avgNeg) }

/-- Embedding of `ContentAnalyzer.analyze_sentiment`
(src/models/analyzer.py lines 40-78), parametric in the classifier `cl`
and taking the spacy sentence segmentation of the text as input.  Only
the first 50 sentences are classified (line 60).  `none` models the
empty dict returned by the except branch (line 78). -/
def analyze_sentiment (cl : String → Option Score3)
    (sentences : List String) : Option SentimentResult :=
  if sentences.isEmpty then some zeroSentiment
  else
    match collectScores cl (sentences.take 50) with
    | none => none
    | some scores => some (aggregateScores scores)

/-- The per-sentence error recovery described by the specification
(spec sections 4.2 and 7), stated as a second definition for
comparison: a failed sentence is excluded from the aggregate and the
remaining sentences are still analysed; when every sentence fails the
zero/neutral default aggregate is returned. -/
def perSentenceRecoverySentiment (cl : String → Option Score3)
    (sentences : List String) : Option SentimentResult :=
  if sentences.isEmpty then some zeroSentiment
  else
    let scores := (sentences.take 50).filterMap cl
    if scores.isEmpty then some zeroSentiment
    else some (aggregateScores scores)

/-- A classifier output is a probability distribution (the softmax of
src/models/analyzer.py line 63 always is). -/
def IsDistribution (t : Score3) : Prop :=
  0 ≤ t.neg ∧ 0 ≤ t.neu ∧ 0 ≤ t.pos ∧ t.neg + t.neu + t.pos = 1

instance (t : Score3) : Decidable (IsDistribution t) := by
  unfold IsDistribution
  infer_instance

/-- Helper: a failing sentence anywhere in the list makes the
collection loop abort with `none`. -/
lemma collectScores_eq_none (cl : String → Option Score3)
    (ss : List String) (s : String) (hs : s ∈ ss) (hfail : cl s = none) :
    collectScores cl ss = none := by
  induction ss with
  | nil => cases hs
  | cons hd tl ih =>
    rcases List.mem_cons.mp hs with rfl | hmem
    · unfold collectScores
      rw [hfail]
    · unfold collectScores
      cases hcl : cl hd with
      | none => rfl
      | some t => rw [ih hmem]; rfl

/-- Helper: a successful collection has one score per sentence. -/
lemma collectScores_length (cl : String → Option Score3)
    (ss : List String) (l : List Score3)
    (h : collectScores cl ss = some l) : l.length = ss.length := by
  induction ss generalizing l with
  | nil =>
    unfold collectScores at h
    cases h
    rfl
  | cons hd tl ih =>
    unfold collectScores at h
    cases hcl : cl hd with
    | none => rw [hcl] at h; cases h
    | some t =>
      rw [hcl] at h
      cases hrec : collectScores cl tl with
      | none => rw [hrec] at h; cases h
      | some l2 =>
        rw [hrec] at h
        obtain rfl := Option.some.inj h
        simp [ih l2 hrec]

/-- Helper: every collected score is an output of the classifier on one
of the sentences. -/
lemma collectScores_mem (cl : String → Option Score3)
    (ss : List String) (l : List Score3)
    (h : collectScores cl ss = some l) (t : Score3) (ht : t ∈ l) :
    ∃ s ∈ ss, cl s = some t := by
  induction ss generalizing l with
  | nil =>
    unfold collectScores at h
    cases h
    cases ht
  | cons hd tl ih =>
    unfold collectScores at h
    cases hcl : cl hd with
    | none => rw [hcl] at h; cases h
    | some u =>
      rw [hcl] at h
      cases hrec : collectScores cl tl with
      | none => rw [hrec] at h; cases h
      | some l2 =>
        rw [hrec] at h
        obtain rfl := Option.some.inj h
        rcases List.mem_cons.mp ht with rfl | hmem
        · exact ⟨hd, List.mem_cons_self hd tl, hcl⟩
        · rcases ih l2 hrec hmem with ⟨s, hstl, hcls⟩
          exact ⟨s, List.mem_cons_of_mem hd hstl, hcls⟩

/-- A concrete classifier for exercising the failure path: it fails on
every sentence except "good". -/
def clC3 : String → Option Score3 :=
  fun s => if s = "good" then some { neg := 0, neu := 0, pos := 1 } else none

/-- Counterexample to claim C3: with a classifier that fails on "bad"
and succeeds on "good", `analyze_sentiment` on ["bad", "good"] returns
the empty dict (`none`) — the failing sentence aborts the whole
document instead of being excluded — whereas the per-sentence recovery
described by the specification would return the aggregate of the one
surviving sentence. -/
theorem C3_counterexample :
    analyze_sentiment clC3 ["bad", "good"] = none
    ∧ perSentenceRecoverySentiment clC3 ["bad", "good"]
        = some { negative_pct := 0, neutral_pct := 0, positive_pct := 100,
                 overall_score := 1 }
    ∧ analyze_sentiment clC3 ["bad", "good"]
        ≠ perSentenceRecoverySentiment clC3 ["bad", "good"] := by
  have h1 : analyze_sentiment clC3 ["bad", "good"] = none := by
    simp [analyze_sentiment, collectScores, clC3]
  have h2 : perSentenceRecoverySentiment clC3 ["bad", "good"]
      = some { negative_pct := 0, neutral_pct := 0, positive_pct := 100,
               overall_score := 1 } := by
    simp [perSentenceRecoverySentiment, clC3, aggregateScores, roundTo, zeroSentiment]
    norm_num [round_eq]
  refine ⟨h1, h2, ?_⟩
  rw [h1, h2]
  simp

/-- Claim C3 (amended): classifier failures are caught at the whole
function, not per sentence — if any of the (at most 50) analysed
sentences fails to classify, `analyze_sentiment` abandons the whole
document and returns the empty dict; the failure still never propagates
past the function boundary, and the zero/neutral default is returned
only for an empty sentence list, not when all sentences fail. -/
theorem C3_any_failure_aborts_document (cl : String → Option Score3)
    (sentences : List String) (s : String)
    (hs : s ∈ sentences.take 50) (hfail : cl s = none) :
    analyze_sentiment cl sentences = none := by
  have hne : sentences.isEmpty = false := by
    cases sentences with
    | nil => cases hs
    | cons hd tl => rfl
  unfold analyze_sentiment
  rw [hne, collectScores_eq_none cl (sentences.take 50) s hs hfail]
  simp

/-- Witness for C3 at a concrete failing classifier call. -/
theorem C3_witness : analyze_sentiment clC3 ["bad"] = none :=
  C3_any_failure_aborts_document clC3 ["bad"] "bad" (by decide) (by decide)

/-- Claim C8: when segmentation yields zero sentences (as it does for
the empty text), `analyze_sentiment` returns the all-zero aggregate
rather than failing, for every classifier. -/
theorem C8_zero_sentences_zero_aggregate (cl : String → Option Score3) :
    analyze_sentiment cl []
      = some { positive_pct := 0, neutral_pct := 0, negative_pct := 0,
               overall_score := 0 } := rfl

/-! ### Quantitative facts about the sentiment aggregate -/

/-- Rounding to `d` decimals moves a value by at most half a unit in
the last place. -/
lemma roundTo_abs_sub (d : Nat) (x : ℚ) :
    |roundTo d x - x| ≤ (1 / 2) / 10 ^ d := by
  have hpow : (0 : ℚ) < 10 ^ d := by positivity
  have heq : roundTo d x - x
      = ((round (x * 10 ^ d) : ℚ) - x * 10 ^ d) / 10 ^ d := by
    unfold roundTo
    field_simp
    ring
  rw [heq, abs_div, abs_of_pos hpow]
  gcongr
  rw [abs_sub_comm]
  exact abs_sub_round (x * 10 ^ d)

/-- Rounding is monotone. -/
lemma round_rat_mono {x y : ℚ} (h : x ≤ y) : round x ≤ round y := by
  rw [round_eq, round_eq]
  exact Int.floor_le_floor (by linarith)

/-- A value at most 1 rounds to two decimals to a value at most 1. -/
lemma roundTo_two_le_one {x : ℚ} (h : x ≤ 1) : roundTo 2 x ≤ 1 := by
  unfold roundTo
  have h1 : round (x * 10 ^ 2) ≤ round ((100 : ℚ)) :=
    round_rat_mono (by nlinarith)
  have h100 : round ((100 : ℚ)) = 100 := by
    rw [show (100 : ℚ) = ((100 : ℕ) : ℚ) by norm_num, round_natCast]
    norm_num
  rw [h100] at h1
  rw [div_le_one (by positivity)]
  calc ((round (x * 10 ^ 2) : ℤ) : ℚ) ≤ ((100 : ℤ) : ℚ) := by exact_mod_cast h1
    _ = 10 ^ 2 := by norm_num

/-- A value at least -1 rounds to two decimals to a value at least -1. -/
lemma neg_one_le_roundTo_two {x : ℚ} (h : -1 ≤ x) : -1 ≤ roundTo 2 x := by
  unfold roundTo
  have h1 : round ((-100 : ℚ)) ≤ round (x * 10 ^ 2) :=
    round_rat_mono (by nlinarith)
  have h100 : round ((-100 : ℚ)) = -100 := by
    rw [show (-100 : ℚ) = ((-100 : ℤ) : ℚ) by norm_num, round_intCast]
  rw [h100] at h1
  rw [le_div_iff₀ (by positivity : (0 : ℚ) < 10 ^ 2)]
  calc (-1 : ℚ) * 10 ^ 2 = ((-100 : ℤ) : ℚ) := by norm_num
    _ ≤ ((round (x * 10 ^ 2) : ℤ) : ℚ) := by exact_mod_cast h1

/-- The three component sums of a list of distributions add up to the
list length. -/
lemma sum3_eq_len (l : List Score3) (h : ∀ t ∈ l, IsDistribution t) :
    (l.map Score3.neg).sum + (l.map Score3.neu).sum + (l.map Score3.pos).sum
      = (l.length : ℚ) := by
  induction l with
  | nil => simp
  | cons hd tl ih =>
    have hhd := h hd (List.mem_cons_self hd tl)
    have htl := ih (fun t ht => h t (List.mem_cons_of_mem hd ht))
    obtain ⟨-, -, -, hsum⟩ := hhd
    simp only [List.map_cons, List.sum_cons, List.length_cons]
    push_cast
    linarith

/-- Each component sum of a list of scores with components in [0, 1]
lies in [0, length]. -/
lemma sum_comp_bounds (l : List Score3) (f : Score3 → ℚ)
    (h0 : ∀ t ∈ l, 0 ≤ f t) (h1 : ∀ t ∈ l, f t ≤ 1) :
    0 ≤ (l.map f).sum ∧ (l.map f).sum ≤ (l.length : ℚ) := by
  constructor
  · apply List.sum_nonneg
    intro x hx
    rcases List.mem_map.mp hx with ⟨t, ht, rfl⟩
    exact h0 t ht
  · have hb := List.sum_le_card_nsmul (l.map f) 1 (by
      intro x hx
      rcases List.mem_map.mp hx with ⟨t, ht, rfl⟩
      exact h1 t ht)
    simpa [nsmul_eq_mul] using hb

/-- Each component of a distribution lies in [0, 1]. -/
lemma dist_comp_le_one (t : Score3) (h : IsDistribution t) :
    t.neg ≤ 1 ∧ t.neu ≤ 1 ∧ t.pos ≤ 1 := by
  obtain ⟨h1, h2, h3, h4⟩ := h
  exact ⟨by linarith, by linarith, by linarith⟩

/-- Core quantitative fact: on a non-empty list of per-sentence
distributions, the aggregate percentages sum to 100 up to the rounding
epsilon 0.15, and the overall score lies in [-1, 1]. -/
lemma aggregateScores_props (scores : List Score3) (hne : scores ≠ [])
    (h : ∀ t ∈ scores, IsDistribution t) :
    |(aggregateScores scores).negative_pct + (aggregateScores scores).neutral_pct
        + (aggregateScores scores).positive_pct - 100| ≤ 3 / 20
    ∧ -1 ≤ (aggregateScores scores).overall_score
    ∧ (aggregateScores scores).overall_score ≤ 1 := by
  have hk : (0 : ℚ) < (scores.length : ℚ) := by
    have := List.length_pos.mpr hne
    exact_mod_cast this
  have hnegb := sum_comp_bounds scores Score3.neg
    (fun t ht => (h t ht).1) (fun t ht => (dist_comp_le_one t (h t ht)).1)
  have hneub := sum_comp_bounds scores Score3.neu
    (fun t ht => (h t ht).2.1) (fun t ht => (dist_comp_le_one t (h t ht)).2.1)
  have hposb := sum_comp_bounds scores Score3.pos
    (fun t ht => (h t ht).2.2.1) (fun t ht => (dist_comp_le_one t (h t ht)).2.2)
  have hsum3 := sum3_eq_len scores h
  simp only [aggregateScores]
  set k : ℚ := (scores.length : ℚ) with hkdef
  set a : ℚ := (scores.map Score3.neg).sum / k with hadef
  set b : ℚ := (scores.map Score3.neu).sum / k with hbdef
  set c : ℚ := (scores.map Score3.pos).sum / k with hcdef
  have ha0 : 0 ≤ a := div_nonneg hnegb.1 hk.le
  have hb0 : 0 ≤ b := div_nonneg hneub.1 hk.le
  have hc0 : 0 ≤ c := div_nonneg hposb.1 hk.le
  have ha1 : a ≤ 1 := by rw [hadef, div_le_one hk]; exact hnegb.2
  have hc1 : c ≤ 1 := by rw [hcdef, div_le_one hk]; exact hposb.2
  have habc : a + b + c = 1 := by
    rw [hadef, hbdef, hcdef, div_add_div_same, div_add_div_same, hsum3]
    exact div_self hk.ne'
  refine ⟨?_, ?_, ?_⟩
  · have hA := abs_le.mp (roundTo_abs_sub 1 (a * 100))
    have hB := abs_le.mp (roundTo_abs_sub 1 (b * 100))
    have hC := abs_le.mp (roundTo_abs_sub 1 (c * 100))
    norm_num at hA hB hC
    rw [abs_le]
    constructor <;> nlinarith
  · exact neg_one_le_roundTo_two (by nlinarith)
  · exact roundTo_two_le_one (by nlinarith)

/-- Claim C7: for every classifier whose outputs are probability
distributions and every text segmenting to at least one sentence, when
`analyze_sentiment` returns a result its three percentages (the
arithmetic means of the per-sentence 3-way distributions, in percent)
sum to 100 up to the rounding epsilon 0.15, and the overall score lies
in [-1, 1]. -/
theorem C7_percentages_sum_and_score_range (cl : String → Option Score3)
    (sentences : List String) (r : SentimentResult)
    (hdist : ∀ s t, cl s = some t → IsDistribution t)
    (hne : sentences.isEmpty = false)
    (hr : analyze_sentiment cl sentences = some r) :
    |r.negative_pct + r.neutral_pct + r.positive_pct - 100| ≤ 3 / 20
    ∧ -1 ≤ r.overall_score ∧ r.overall_score ≤ 1 := by
  unfold analyze_sentiment at hr
  rw [hne] at hr
  simp only [Bool.false_eq_true, if_false] at hr
  cases hc : collectScores cl (sentences.take 50) with
  | none => rw [hc] at hr; cases hr
  | some scores =>
    rw [hc] at hr
    obtain rfl := Option.some.inj hr
    have hlen : scores ≠ [] := by
      have hl := collectScores_length cl (sentences.take 50) scores hc
      cases sentences with
      | nil => simp at hne
      | cons hd tl =>
        intro hnil
        rw [hnil] at hl
        simp [List.length_take] at hl
    have hall : ∀ t ∈ scores, IsDistribution t := by
      intro t ht
      rcases collectScores_mem cl (sentences.take 50) scores hc t ht with ⟨s, -, hcls⟩
      exact hdist s t hcls
    exact aggregateScores_props scores hlen hall

/-- A concrete all-distribution classifier for the C7 witness. -/
def clC7 : String → Option Score3 :=
  fun _ => some { neg := 1 / 2, neu := 1 / 4, pos := 1 / 4 }

/-- Witness for C7 at a concrete one-sentence run. -/
theorem C7_witness :
    |(50 : ℚ) + 25 + 25 - 100| ≤ 3 / 20
    ∧ -1 ≤ (-(1 / 4) : ℚ) ∧ (-(1 / 4) : ℚ) ≤ 1 :=
  C7_percentages_sum_and_score_range clC7 ["hello"]
    { negative_pct := 50, neutral_pct := 25, positive_pct := 25,
      overall_score := -(1 / 4) }
    (fun s t hst => by
      rw [← Option.some.inj hst]
      norm_num [IsDistribution])
    rfl
    (by
      simp [analyze_sentiment, collectScores, clC7, aggregateScores, roundTo]
      norm_num [round_eq])
